import Mathlib

/-!
A shallow embedding of the CortexPool memory engine (src/cortex-pool.ts).

The SQLite database is modelled as `CortexStore`: each table is a list of
typed rows kept in rowid (= id) order, as produced by `INSERT` with
`AUTOINCREMENT` and scanned by `SELECT *`.  The engine's in-memory fields
(`currentTopics`, `activationLevels`, `activationHistory`) live in `Engine`.
JavaScript numbers are modelled as `ℚ` (the arithmetic the code performs is
exact rational arithmetic except for `Math.exp`, treated separately), string
keys and contents as `String` restricted to the ASCII fragment (JS
`toLowerCase` and SQLite `LIKE` case folding agree with ASCII folding there),
and `Date.now()` as an explicit `now : Int` argument, one per top-level call.
JS `Map` is modelled as an insertion-ordered association list.
-/

namespace CortexPool

/-- The three memory tiers (`MemoryTier` in the source). -/
inductive MemoryTier
  | episodic
  | semantic
  | structural
deriving DecidableEq, Repr

/-- Entity types (`Entity['type']` in the source). -/
inductive EntityType
  | person
  | project
  | concept
  | tool
  | preference
  | website
  | other
deriving DecidableEq, Repr

/-- Per-tier configuration (`TIER_CONFIG` in the source); `maxAge` is `none`
for `Infinity`.  `maxAge` is never read by any modelled operation. -/
structure TierConfig where
  decayRate : ℚ
  baseImportance : ℚ
  maxAge : Option ℚ
deriving DecidableEq, Repr

/-- `TIER_CONFIG` from the source. -/
def TIER_CONFIG : MemoryTier → TierConfig
  | .episodic => ⟨1/10, 3/10, some 86400000⟩
  | .semantic => ⟨1/100, 6/10, some 31536000000⟩
  | .structural => ⟨1/1000, 8/10, none⟩

/-- A row of the `entities` table. -/
structure EntityRow where
  id : Nat
  name : String
  canonicalName : String
  etype : EntityType
  aliases : List String
  confidence : ℚ
  createdAt : Int
deriving DecidableEq, Repr

/-- A row of the `facts` table. -/
structure FactRow where
  id : Nat
  subjectId : Nat
  predicate : String
  objectId : Option Nat
  content : String
  tier : MemoryTier
  importance : ℚ
  confidence : ℚ
  source : String
  lastUsed : Int
  useCount : Nat
  createdAt : Int
  ttl : Option Int
deriving DecidableEq, Repr

/-- A row of the `pool` table. -/
structure PoolRow where
  factId : Nat
  relevanceScore : ℚ
  addedAt : Int
deriving DecidableEq, Repr

/-- A row of the `topics` table. -/
structure TopicRow where
  topic : String
  canonicalTopic : String
  weight : ℚ
  lastSeen : Int
deriving DecidableEq, Repr

/-- A row of the `contradictions` table. -/
structure ContradictionRow where
  fact1Id : Nat
  fact2Id : Nat
  detectedAt : Int
deriving DecidableEq, Repr

/-- An activation history entry (both the in-memory ring and the
`activation_history` table use this shape). -/
structure ActivationHistoryRow where
  entityId : Nat
  activation : ℚ
  timestamp : Int
  source : String
deriving DecidableEq, Repr

/-- A row of the `reflections` log.  The source serializes the details to
JSON; we keep them structured (serialization is the persistence boundary). -/
inductive ReflectionDetails
  | decayRun (pruned : Nat)
  | reflectRun (contradictions : Nat) (compressed : Nat)
deriving DecidableEq, Repr

/-- A reflections-table row. -/
structure ReflectionRow where
  action : String
  details : ReflectionDetails
  createdAt : Int
deriving DecidableEq, Repr

/-- The SQLite database: one list per table, in rowid order. -/
structure CortexStore where
  entities : List EntityRow := []
  facts : List FactRow := []
  pool : List PoolRow := []
  topics : List TopicRow := []
  contradictions : List ContradictionRow := []
  reflections : List ReflectionRow := []
  activationHistoryTable : List ActivationHistoryRow := []
  nextEntityId : Nat := 1
  nextFactId : Nat := 1
deriving DecidableEq, Repr

/-- The engine: database plus the in-memory per-instance fields of the
`CortexPool` class. -/
structure Engine where
  store : CortexStore := {}
  poolSize : Nat := 15
  currentTopics : List String := []
  activationLevels : List (Nat × ℚ) := []
  activationHistory : List ActivationHistoryRow := []
  maxActivationHistory : Nat := 1000
deriving DecidableEq, Repr

/-! ## Strings: normalization, Levenshtein distance, similarity -/

/-- ASCII lower-casing of one character (JS `toLowerCase` restricted to the
ASCII fragment this model covers). -/
def asciiLower (c : Char) : Char :=
  if 'A' ≤ c ∧ c ≤ 'Z' then Char.ofNat (c.toNat + 32) else c

/-- Collapse runs of whitespace to a single space (`replace(/\s+/g, ' ')`).
The boolean records whether the previous character was part of a run. -/
def collapseWsAux : Bool → List Char → List Char
  | _, [] => []
  | prevWs, c :: rest =>
    if c.isWhitespace then
      if prevWs then collapseWsAux true rest
      else ' ' :: collapseWsAux true rest
    else c :: collapseWsAux false rest

/-- `normalizeName` from the source: lowercase, trim, collapse inner
whitespace runs to single spaces. -/
def normalizeName (name : String) : String :=
  String.mk (collapseWsAux false ((String.mk (name.data.map asciiLower)).trim.data))

/-- One inner step of the Levenshtein DP (`matrix[i][j]` for `j ≥ 1`): the
first list is the remaining suffix of `s1`, the second is the previous row
starting at `p_(j-1)`, and `qPrev` is the entry just computed on this row. -/
def levNext (b : Char) : List Char → List Nat → Nat → List Nat
  | [], _, _ => []
  | _ :: _, [], _ => []
  | a :: s, pjm1 :: prest, qPrev =>
    let pj := prest.headD 0
    let q := if a = b then pjm1 else 1 + min pjm1 (min qPrev pj)
    q :: levNext b s prest q

/-- Run the Levenshtein DP over all characters of `s2`, row by row, returning
the final row. -/
def levRows (s1 : List Char) : List Char → List Nat → List Nat
  | [], row => row
  | b :: s2rest, row =>
    let q0 := row.headD 0 + 1
    levRows s1 s2rest (q0 :: levNext b s1 row q0)

/-- `levenshteinDistance` from the source (classic DP with unit costs). -/
def levenshteinDistance (s1 s2 : String) : Nat :=
  if s1.length = 0 then s2.length
  else if s2.length = 0 then s1.length
  else
    let finalRow := levRows s1.data s2.data (List.range (s1.length + 1))
    finalRow.getLastD 0

/-- `calculateSimilarity` from the source:
`1 − editDistance / max(|s1|,|s2|)`, with `1` when both are empty. -/
def calculateSimilarity (s1 s2 : String) : ℚ :=
  let maxLen := max s1.length s2.length
  if maxLen = 0 then 1 else 1 - (levenshteinDistance s1 s2 : ℚ) / (maxLen : ℚ)

/-- Does the string start with the pattern (first argument)? -/
def startsWithChars : List Char → List Char → Bool
  | [], _ => true
  | _ :: _, [] => false
  | a :: as, b :: bs => a = b && startsWithChars as bs

/-- Does the pattern occur as a contiguous substring? -/
def containsChars (pat : List Char) : List Char → Bool
  | [] => pat.isEmpty
  | c :: rest => startsWithChars pat (c :: rest) || containsChars pat rest

/-- JS `String.prototype.includes`: substring containment. -/
def jsIncludes (s sub : String) : Bool :=
  containsChars sub.data s.data

/-! ## JSON alias serialization and SQLite `LIKE`

The `entities.aliases` column stores `JSON.stringify` of the alias array; the
alias lookup in `resolveEntity` runs `aliases LIKE '%query%'` against that
serialized string.  SQLite `LIKE` is case-insensitive on ASCII and treats
`%`/`_` in the pattern as wildcards; both are modelled. -/

/-- Escape one character as inside a JSON string literal (`"` and `\` are the
only characters needing escapes among the inputs this model covers). -/
def jsonEscapeChar (c : Char) : List Char :=
  if c = '"' then ['\\', '"']
  else if c = '\\' then ['\\', '\\'] else [c]

/-- JSON string literal for `s`. -/
def jsonQuote (s : String) : String :=
  String.mk ('"' :: (s.data.flatMap jsonEscapeChar) ++ ['"'])

/-- `JSON.stringify` of a string array, as stored in `entities.aliases`. -/
def aliasesJson (aliases : List String) : String :=
  "[" ++ String.intercalate "," (aliases.map jsonQuote) ++ "]"

/-- SQLite `LIKE` matching (ASCII case-insensitive; `%` matches any run,
`_` any single character), pattern first.  `%` consumes an arbitrary prefix,
expressed by trying every suffix of the string. -/
def likeMatch : List Char → List Char → Bool
  | [], s => s.isEmpty
  | '%' :: ps, s => (List.tails s).any (fun t => likeMatch ps t)
  | '_' :: ps, _ :: s => likeMatch ps s
  | '_' :: _, [] => false
  | p :: ps, c :: s => (asciiLower p = asciiLower c) && likeMatch ps s
  | _ :: _, [] => false

/-- `column LIKE '%' || query || '%'` as used on the aliases column. -/
def likeContains (column query : String) : Bool :=
  likeMatch ('%' :: query.data ++ ['%']) column.data

/-! ## List helpers: insertion-ordered maps, pair enumeration, stable sort -/

/-- Lookup in an insertion-ordered association list (JS `Map.get`). -/
def mapGet {β : Type} (m : List (Nat × β)) (k : Nat) : Option β :=
  (m.find? (fun p => p.1 = k)).map (·.2)

/-- `Map.get(k) || 0`. -/
def mapGetD (m : List (Nat × ℚ)) (k : Nat) : ℚ :=
  (mapGet m k).getD 0

/-- Update/insert in an insertion-ordered association list (JS `Map.set`):
an existing key keeps its position, a new key is appended. -/
def mapSet {β : Type} (m : List (Nat × β)) (k : Nat) (v : β) : List (Nat × β) :=
  if (m.find? (fun p => p.1 = k)).isSome then
    m.map (fun p => if p.1 = k then (k, v) else p)
  else m ++ [(k, v)]

/-- Deduplicate keeping first occurrences (JS `new Set(...)` iteration
order): keep the head, then the deduplication of the tail with later copies
of the head removed. -/
def jsDedup {α : Type} [DecidableEq α] : List α → List α
  | [] => []
  | a :: l => a :: (jsDedup l).filter (· ≠ a)

/-- All ordered index pairs `(i, j)` with `i < j`, in the order of the nested
`for` loops of the source. -/
def allPairs : List α → List (α × α)
  | [] => []
  | x :: xs => xs.map (fun y => (x, y)) ++ allPairs xs

/-- The comparator relation of a JS `sort((a, b) => key(b) - key(a))`:
descending by `key`. -/
def keyGE (key : α → ℚ) (a b : α) : Prop := key b ≤ key a

instance (key : α → ℚ) : DecidableRel (keyGE key) :=
  fun a b => inferInstanceAs (Decidable (key b ≤ key a))

instance (key : α → ℚ) : IsTotal α (keyGE key) :=
  ⟨fun a b => (le_total (key b) (key a)).imp id id⟩

instance (key : α → ℚ) : IsTrans α (keyGE key) :=
  ⟨fun _ _ _ h1 h2 => le_trans h2 h1⟩

/-- JS `Array.prototype.sort` with comparator `(a, b) => key(b) - key(a)`:
a stable descending sort, modelled as insertion sort (stable for the
total preorder `keyGE`). -/
def sortDescBy (key : α → ℚ) (l : List α) : List α :=
  l.insertionSort (keyGE key)

/-! ## Entity operations -/

/-- `UPDATE entities SET ... WHERE id = ?`. -/
def updateEntityRows (l : List EntityRow) (id : Nat) (f : EntityRow → EntityRow) :
    List EntityRow :=
  l.map (fun e => if e.id = id then f e else e)

/-- `addEntity` from the source: re-observation appends a novel alias and
blends confidence as the arithmetic mean; otherwise a fresh row is inserted
with `aliases = [name]`.  The entity type is never overwritten. -/
def addEntity (s : CortexStore) (name : String) (etype : EntityType) (confidence : ℚ)
    (now : Int) : CortexStore × Nat :=
  let canonicalName := normalizeName name
  match s.entities.find? (fun e => e.canonicalName = canonicalName) with
  | some existing =>
    let aliases :=
      if name ∈ existing.aliases then existing.aliases else existing.aliases ++ [name]
    let newConfidence := (existing.confidence + confidence) / 2
    let entities := updateEntityRows s.entities existing.id
      (fun e => { e with aliases := aliases, confidence := newConfidence })
    ({ s with entities := entities }, existing.id)
  | none =>
    let row : EntityRow :=
      ⟨s.nextEntityId, name, canonicalName, etype, [name], confidence, now⟩
    ({ s with entities := s.entities ++ [row], nextEntityId := s.nextEntityId + 1 },
      s.nextEntityId)

/-- The running maximum computed inside `findFuzzyMatches` for one entity:
starts at `0`, takes the similarity to `canonicalName`, then to each
normalized alias. -/
def entityMaxSimilarity (normalizedQuery : String) (e : EntityRow) : ℚ :=
  (e.aliases.map (fun al => calculateSimilarity normalizedQuery (normalizeName al))).foldl
    max (max 0 (calculateSimilarity normalizedQuery e.canonicalName))

/-- `findFuzzyMatches` from the source: keep entities whose best similarity
reaches the threshold, sorted descending by similarity (stable, so ties keep
table order, i.e. ascending id). -/
def findFuzzyMatches (s : CortexStore) (query : String) (threshold : ℚ) : List EntityRow :=
  let normalizedQuery := normalizeName query
  let ms := s.entities.filterMap (fun e =>
    let sim := entityMaxSimilarity normalizedQuery e
    if threshold ≤ sim then some (e, sim) else none)
  (sortDescBy (fun p => p.2) ms).map (fun p => p.1)

/-- `resolveEntity` from the source: exact canonical-name match, then
`aliases LIKE '%query%'` on the serialized alias list, then the best fuzzy
match at threshold `0.8`; `.get` takes the first row in table order. -/
def resolveEntity (s : CortexStore) (query : String) : Option EntityRow :=
  let normalized := normalizeName query
  match s.entities.find? (fun e => e.canonicalName = normalized) with
  | some e => some e
  | none =>
    match s.entities.find? (fun e => likeContains (aliasesJson e.aliases) query) with
    | some e => some e
    | none => (findFuzzyMatches s query (4/5)).head?

/-- `inferType` from the source (predicate → entity-type hint). -/
def inferType (predicate : String) : EntityType :=
  match predicate with
  | "knows" => .person
  | "created" => .project
  | "fork-of" => .project
  | "prefers" => .preference
  | "uses" => .tool
  | "learned" => .person
  | "teachers" => .person
  | "runs-on" => .concept
  | "model" => .concept
  | "github" => .website
  | "caregiver" => .person
  | "autistic" => .person
  | "used-for" => .concept
  | "created-by" => .person
  | "is" => .concept
  | "has" => .concept
  | "affiliated-with" => .person
  | "related-to" => .concept
  | _ => .other

/-- `getFact` from the source. -/
def getFact (s : CortexStore) (id : Nat) : Option FactRow :=
  s.facts.find? (fun f => f.id = id)

/-! ## Fact store -/

/-- The parameter object of `addFact`, with the source's defaults. -/
structure AddFactParams where
  subject : String
  predicate : String
  object : Option String := none
  content : String
  tier : MemoryTier := .semantic
  confidence : ℚ := 7/10
  source : String := "conversation"
  ttl : Option Int := none
deriving DecidableEq, Repr

/-- The ttl actually inserted by `addFact`: `!ttl` treats an absent ttl and
an explicit `0` alike (an episodic fact with either gets the 7-day default),
and `effectiveTtl || null` stores a remaining `0` as `NULL`. -/
def addFactStoredTtl (tier : MemoryTier) (ttl : Option Int) : Option Int :=
  let effectiveTtl : Option Int :=
    if tier = .episodic ∧ (ttl = none ∨ ttl = some 0) then some 604800000 else ttl
  match effectiveTtl with
  | some t => if t = 0 then none else some t
  | none => none

/-- `addFact` from the source.  `if (object)` skips `undefined`, `null` and
the empty string; the stored ttl is `addFactStoredTtl`; importance defaults
to the tier base; `useCount = 0`; `lastUsed = createdAt = now`. -/
def addFact (s : CortexStore) (p : AddFactParams) (now : Int) : CortexStore × Nat :=
  let sub := addEntity s p.subject (inferType p.predicate) p.confidence now
  let objRes : CortexStore × Option Nat :=
    match p.object with
    | some o =>
      if o = "" then (sub.1, none)
      else
        let r := addEntity sub.1 o .other p.confidence now
        (r.1, some r.2)
    | none => (sub.1, none)
  let s2 := objRes.1
  let row : FactRow :=
    ⟨s2.nextFactId, sub.2, p.predicate, objRes.2, p.content, p.tier,
      (TIER_CONFIG p.tier).baseImportance, p.confidence, p.source, now, 0, now,
      addFactStoredTtl p.tier p.ttl⟩
  ({ s2 with facts := s2.facts ++ [row], nextFactId := s2.nextFactId + 1 }, s2.nextFactId)

/-- `useFact` from the source: a missing id returns with no change; otherwise
importance is bumped by `0.1` capped at `1`, `lastUsed` refreshed, `useCount`
incremented. -/
def useFact (s : CortexStore) (factId : Nat) (now : Int) : CortexStore :=
  match getFact s factId with
  | none => s
  | some fact =>
    let newImportance := min 1 (fact.importance + 1/10)
    { s with facts := s.facts.map (fun f =>
        if f.id = factId then
          { f with importance := newImportance, lastUsed := now, useCount := f.useCount + 1 }
        else f) }

/-! ## Topics and activation -/

/-- The upsert on the `topics` table performed by `setTopics`. -/
def upsertTopic (topics : List TopicRow) (topic canonicalTopic : String) (now : Int) :
    List TopicRow :=
  if (topics.find? (fun t => t.topic = topic)).isSome then
    topics.map (fun t =>
      if t.topic = topic then { t with weight := t.weight * (9/10) + 1, lastSeen := now }
      else t)
  else topics ++ [⟨topic, canonicalTopic, 1, now⟩]

/-- `setTopics` from the source: remembers the topic list, clears the
activation map, upserts each topic row, and seeds activation `1.0` for each
topic that resolves to an entity. -/
def setTopics (eng : Engine) (topics : List String) (now : Int) : Engine :=
  let eng0 := { eng with currentTopics := topics, activationLevels := [] }
  topics.foldl (fun acc topic =>
    let acc := { acc with store :=
      { acc.store with topics := upsertTopic acc.store.topics topic (normalizeName topic) now } }
    match resolveEntity acc.store topic with
    | some e => { acc with activationLevels := mapSet acc.activationLevels e.id 1 }
    | none => acc) eng0

/-- One layer of `spreadActivation`: build the `newLevels` map for layer `d`.
`if (neighborId && neighborId !== entityId)` skips a null object, the id `0`
and self-loops. -/
def spreadLayer (s : CortexStore) (levels : List (Nat × ℚ)) (d : Nat) (decay : ℚ) :
    List (Nat × ℚ) :=
  levels.foldl (fun newLevels p =>
    let entityId := p.1
    let activation := p.2
    if activation < 1/100 then newLevels
    else
      let edgeAttenuation := decay ^ (d + 1)
      let related := s.facts.filter
        (fun f => f.subjectId = entityId ∨ f.objectId = some entityId)
      related.foldl (fun nl row =>
        let neighborId : Option Nat :=
          if row.subjectId = entityId then row.objectId else some row.subjectId
        match neighborId with
        | some nid =>
          if nid ≠ 0 ∧ nid ≠ entityId then
            let distanceWeight : ℚ := if row.predicate = "related-to" then 7/10 else 1
            let attenuated := activation * edgeAttenuation * distanceWeight
            mapSet nl nid (max (mapGetD nl nid) attenuated)
          else nl
        | none => nl) newLevels) []

/-- Merge a layer's `newLevels` into the global activation map by
element-wise max. -/
def mergeLevels (levels newLevels : List (Nat × ℚ)) : List (Nat × ℚ) :=
  newLevels.foldl (fun acc p => mapSet acc p.1 (max (mapGetD acc p.1) p.2)) levels

/-- `applyActivationDecay` from the source: entities with no history entry in
the last hour decay by 5% and are dropped below `0.01`. -/
def applyActivationDecay (eng : Engine) (now : Int) : Engine :=
  { eng with activationLevels := eng.activationLevels.filterMap (fun p =>
      let recent := eng.activationHistory.filter
        (fun e => e.entityId = p.1 ∧ now - e.timestamp < 3600000)
      if recent.isEmpty then
        let decayed := p.2 * (1 - 1/20)
        if decayed < 1/100 then none else some (p.1, decayed)
      else some p) }

/-- `recordActivationHistory` from the source: snapshot every active entity
tagged `"spread"`, trim the in-memory ring to `maxActivationHistory`, and
persist the most recent ≤ 100 ring entries. -/
def recordActivationHistory (eng : Engine) (now : Int) : Engine :=
  let hist := eng.activationHistory ++
    eng.activationLevels.map (fun p => ⟨p.1, p.2, now, "spread"⟩)
  let hist :=
    if eng.maxActivationHistory < hist.length then
      hist.drop (hist.length - eng.maxActivationHistory)
    else hist
  let persisted := hist.drop (hist.length - min 100 hist.length)
  let store := { eng.store with
    activationHistoryTable := eng.store.activationHistoryTable ++ persisted }
  { eng with activationHistory := hist, store := store }

/-- `spreadActivation` from the source: `depth` layers of propagation with
geometric attenuation `decay^(d+1)` and edge weight `0.7` for `related-to`,
merged by element-wise max, followed by activation decay and history
recording. -/
def spreadActivation (eng : Engine) (depth : Nat) (decay : ℚ) (now : Int) : Engine :=
  let eng1 := (List.range depth).foldl (fun acc d =>
    { acc with activationLevels :=
        mergeLevels acc.activationLevels (spreadLayer acc.store acc.activationLevels d decay) })
    eng
  recordActivationHistory (applyActivationDecay eng1 now) now

/-! ## Relevance and retrieval -/

/-- The `typeWeights` table of `calculateRelevance`. -/
def typeWeight : EntityType → ℚ
  | .person => 3/20
  | .project => 3/20
  | .preference => 1/5
  | .tool => 1/10
  | .concept => 1/20
  | _ => 0

/-- `calculateRelevance` from the source.  A missing subject entity returns
the bare `importance · confidence` score. -/
def calculateRelevance (eng : Engine) (fact : FactRow) (now : Int) : ℚ :=
  let score := fact.importance * fact.confidence
  match eng.store.entities.find? (fun e => e.id = fact.subjectId) with
  | none => score
  | some subject =>
    let score := eng.currentTopics.foldl (fun sc topic =>
      let normTopic := normalizeName topic
      let sc :=
        if jsIncludes subject.canonicalName normTopic ||
            jsIncludes normTopic subject.canonicalName then sc + 2/5
        else sc
      if subject.aliases.any (fun al => jsIncludes (normalizeName al) normTopic) then
        sc + 3/10
      else sc) score
    let score := score + mapGetD eng.activationLevels fact.subjectId * (3/10)
    let score := score + typeWeight subject.etype
    let hoursSinceUse : ℚ := ((now - fact.lastUsed : Int) : ℚ) / 3600000
    let score := score + max 0 (1/5 - hoursSinceUse * (1/100))
    min 1 score

/-- The options object of `retrieve`.  The source destructures only
`poolSize`; `useVectors` is accepted and never read. -/
structure RetrieveOptions where
  useVectors : Bool := false
  poolSize : Option Nat := none
deriving DecidableEq, Repr

/-- One element of `retrieve`'s return: the fact hydrated with its subject
and object entities and the computed score. -/
structure RetrieveResult where
  fact : FactRow
  subject : Option EntityRow
  object : Option EntityRow
  score : ℚ
deriving DecidableEq, Repr

/-- The engine state at scoring time inside `retrieve`: after `setTopics`
and `spreadActivation(2, 0.5)`. -/
def retrieveScoringEngine (eng : Engine) (topics : List String) (now : Int) : Engine :=
  spreadActivation (setTopics eng topics now) 2 (1/2) now

/-- Hydrate one scored fact into a `RetrieveResult` against a store
(`if (fact.objectId)` skips a null or `0` object id). -/
def hydrateResult (s : CortexStore) (fact : FactRow) (score : ℚ) : RetrieveResult :=
  { fact := fact,
    subject := s.entities.find? (fun e => e.id = fact.subjectId),
    object :=
      match fact.objectId with
      | some oid => if oid = 0 then none else s.entities.find? (fun e => e.id = oid)
      | none => none,
    score := score }

/-- `retrieve` from the source: bind topics, spread activation, score every
fact, sort descending by score (stable), replace the pool with the top
`poolSize` rows, and return the hydrated top facts. -/
def retrieve (eng : Engine) (topics : List String) (options : RetrieveOptions) (now : Int) :
    Engine × List RetrieveResult :=
  let poolSize := options.poolSize.getD eng.poolSize
  let eng2 := retrieveScoringEngine eng topics now
  let scored := eng2.store.facts.map (fun fact => (fact, calculateRelevance eng2 fact now))
  let top := (sortDescBy (fun p => p.2) scored).take poolSize
  let pool := top.map (fun p => PoolRow.mk p.1.id p.2 now)
  let results := top.map (fun p => hydrateResult eng2.store p.1 p.2)
  ({ eng2 with store := { eng2.store with pool := pool } }, results)

/-- `(factId, score)` pairs from the vector backend. -/
structure VectorSearchResult where
  factId : Nat
  score : ℚ
deriving DecidableEq, Repr

/-- `hybridRetrieval` from the source.  The vector backend is passed in as a
function returning `Except` (a thrown/rejected promise is `Except.error`);
the `catch` arm returns the already-computed graph results. -/
def hybridRetrieval (eng : Engine)
    (searchByVector : String → Nat → Except String (List VectorSearchResult))
    (topics : List String) (poolSize : Nat) (now : Int) : Engine × List RetrieveResult :=
  let g := retrieve eng topics { useVectors := false, poolSize := some poolSize } now
  let eng1 := g.1
  let graphResults := g.2
  match searchByVector (String.intercalate " " topics) poolSize with
  | .error _ => (eng1, graphResults)
  | .ok vectorResults =>
    if vectorResults.isEmpty then (eng1, graphResults)
    else
      let vectorFactIds := vectorResults.foldl (fun m r => mapSet m r.factId r.score) []
      let merged1 := graphResults.foldl (fun m r =>
        mapSet m r.fact.id
          { r with score := r.score * (7/10) + (mapGetD vectorFactIds r.fact.id) * (3/10) }) []
      let merged2 := vectorFactIds.foldl (fun m p =>
        if (m.find? (fun q => q.1 = p.1)).isSome then m
        else
          match getFact eng1.store p.1 with
          | some fact => mapSet m p.1 (hydrateResult eng1.store fact (p.2 * (3/10)))
          | none => m) merged1
      (eng1, ((sortDescBy (fun p => p.2.score) merged2).map (fun p => p.2)).take poolSize)

/-! ## Reflection: decay, contradictions, consolidation, compression

`applyDecay` computes `Math.exp(-decayRate * hoursSinceUse)`.  `Math.exp` is
the one operation of the engine outside exact rational arithmetic; the
store-level model takes it as an explicit parameter `expQ : ℚ → ℚ` (the
caller of a theorem instantiates it, e.g. with the exact value of `exp` at
the arguments actually reached), and the per-fact formula is additionally
modelled exactly over `ℝ` with `Real.exp` below. -/

/-- `applyDecay` from the source, over the store: for each fact of the
snapshot, relax importance toward the tier base with factor
`exp(-decayRate·hoursSinceUse)`; delete the fact when the new importance
falls below `0.1`, and log a `decay` reflection row. -/
def applyDecayQ (expQ : ℚ → ℚ) (s : CortexStore) (now : Int) : CortexStore :=
  let snapshot := s.facts
  let s1 := snapshot.foldl (fun acc fact =>
    let config := TIER_CONFIG fact.tier
    let hoursSinceUse : ℚ := ((now - fact.lastUsed : Int) : ℚ) / 3600000
    let decay := expQ (-config.decayRate * hoursSinceUse)
    let newImportance := config.baseImportance + (fact.importance - config.baseImportance) * decay
    if newImportance < 1/10 then
      { acc with facts := acc.facts.filter (fun f => f.id ≠ fact.id) }
    else
      { acc with facts := acc.facts.map (fun f =>
          if f.id = fact.id then { f with importance := newImportance } else f) }) s
  { s1 with reflections := s1.reflections ++ [⟨"decay", .decayRun snapshot.length, now⟩] }

/-- The per-fact importance update of `applyDecay`, exactly over `ℝ` with
`Real.exp` standing for `Math.exp`. -/
noncomputable def decayNewImportance (tier : MemoryTier) (importance lastUsed now : ℝ) : ℝ :=
  let config := TIER_CONFIG tier
  let hoursSinceUse := (now - lastUsed) / 3600000
  (config.baseImportance : ℝ) +
    (importance - (config.baseImportance : ℝ)) *
      Real.exp (-(config.decayRate : ℝ) * hoursSinceUse)

/-- The per-fact outcome of `applyDecay`: `none` when the fact is deleted
(new importance below `0.1`), otherwise the stored new importance. -/
noncomputable def decayOutcome (tier : MemoryTier) (importance lastUsed now : ℝ) : Option ℝ :=
  let newImportance := decayNewImportance tier importance lastUsed now
  if newImportance < 1/10 then none else some newImportance

/-- The self-join of `detectContradictions`: all ordered pairs of facts
sharing `subjectId` and `predicate` with `f1.id < f2.id`, in nested-loop
order. -/
def contradictionPairs (facts : List FactRow) : List (FactRow × FactRow) :=
  facts.flatMap (fun f1 => facts.filterMap (fun f2 =>
    if f1.subjectId = f2.subjectId ∧ f1.predicate = f2.predicate ∧ f1.id < f2.id then
      some (f1, f2)
    else none))

/-- The body of the insertion loop of `detectContradictions`: append a
contradictions row when the two contents differ. -/
def contradictionStep (now : Int) (acc : CortexStore) (p : FactRow × FactRow) : CortexStore :=
  if p.1.content ≠ p.2.content then
    { acc with contradictions := acc.contradictions ++ [⟨p.1.id, p.2.id, now⟩] }
  else acc

/-- `detectContradictions` from the source: insert one contradictions row per
pair with differing `content`; the returned count is the number of pairs of
the self-join (content not considered). -/
def detectContradictions (s : CortexStore) (now : Int) : CortexStore × Nat :=
  let pairs := contradictionPairs s.facts
  (pairs.foldl (contradictionStep now) s, pairs.length)

/-- `UPDATE facts SET subjectId = newId WHERE subjectId = oldId`. -/
def updateFactsSubject (facts : List FactRow) (newId oldId : Nat) : List FactRow :=
  facts.map (fun f => if f.subjectId = oldId then { f with subjectId := newId } else f)

/-- One iteration of the duplicate-entity consolidation loop inside
`reflect()`, with `m` the `canonicalMap` built so far (first-seen rows).  On
a duplicate: rewrite facts' `subjectId` to the survivor; the source then
guards the `objectId` rewrite with `if (entity.objectId)`, but entity rows
have no `objectId` column, so that rewrite never executes; delete the
duplicate entity; store the merged alias set and averaged confidence on the
survivor. -/
def consolidateStep (s : CortexStore) (m : List (String × EntityRow)) (entity : EntityRow) :
    CortexStore × List (String × EntityRow) :=
  match (m.find? (fun p => p.1 = entity.canonicalName)).map (·.2) with
  | some existing =>
    let mergedAliases := jsDedup (existing.aliases ++ entity.aliases)
    let s1 := { s with facts := updateFactsSubject s.facts existing.id entity.id }
    let s2 := { s1 with entities := s1.entities.filter (fun e => e.id ≠ entity.id) }
    let s3 := { s2 with entities := updateEntityRows s2.entities existing.id (fun e =>
        { e with aliases := mergedAliases,
                 confidence := (existing.confidence + entity.confidence) / 2 }) }
    (s3, m)
  | none => (s, m ++ [(entity.canonicalName, entity)])

/-- The duplicate-entity consolidation phase of `reflect()`: fold
`consolidateStep` over the snapshot of the entities table. -/
def consolidateEntities (s : CortexStore) : CortexStore :=
  (s.entities.foldl (fun acc e => consolidateStep acc.1 acc.2 e)
    (s, ([] : List (String × EntityRow)))).1

/-- The merge condition of `mergeSimilarFacts` on a snapshot pair: shared
`(subjectId, predicate)` and content similarity strictly above `0.85`. -/
def qualifies (f1 f2 : FactRow) : Prop :=
  f1.subjectId = f2.subjectId ∧ f1.predicate = f2.predicate ∧
    17/20 < calculateSimilarity f1.content f2.content

instance (f1 f2 : FactRow) : Decidable (qualifies f1 f2) :=
  inferInstanceAs (Decidable (_ ∧ _ ∧ _))

/-- The two SQL statements a firing merge issues, in order: `UPDATE` the row
with `f1.id` to the merged values computed from the snapshot rows `f1`,
`f2`, then `DELETE` the row with `f2.id`. -/
def mergeUpdatedFacts (f1 f2 : FactRow) (facts : List FactRow) : List FactRow :=
  (facts.map (fun (f : FactRow) =>
    if f.id = f1.id then
      { f with confidence := min 1 (f1.confidence + f2.confidence),
               importance := max f1.importance f2.importance,
               useCount := f1.useCount + f2.useCount,
               lastUsed := max f1.lastUsed f2.lastUsed }
    else f)).filter (fun f => f.id ≠ f2.id)

/-- One iteration of the pair loop of `mergeSimilarFacts`. -/
def mergeStep (acc : CortexStore × Nat) (p : FactRow × FactRow) : CortexStore × Nat :=
  if p.1.subjectId = p.2.subjectId ∧ p.1.predicate = p.2.predicate then
    if 17/20 < calculateSimilarity p.1.content p.2.content then
      ({ acc.1 with facts := mergeUpdatedFacts p.1 p.2 acc.1.facts }, acc.2 + 1)
    else acc
  else acc

/-- `mergeSimilarFacts` from the source: over the snapshot of semantic-tier
facts, for each index pair `i < j` sharing `(subjectId, predicate)` with
content similarity above `0.85`, update the first fact with summed
confidence (capped at 1), max importance, summed use count and max
`lastUsed` — all from snapshot values — and delete the second. -/
def mergeSimilarFacts (s : CortexStore) : CortexStore × Nat :=
  (allPairs (s.facts.filter (fun f => f.tier = .semantic))).foldl mergeStep (s, 0)

/-- `ORDER BY importance DESC, useCount DESC` as a relation. -/
def impUseGE (a b : FactRow) : Prop :=
  b.importance < a.importance ∨ (a.importance = b.importance ∧ b.useCount ≤ a.useCount)

instance : DecidableRel impUseGE := fun a b =>
  inferInstanceAs (Decidable (b.importance < a.importance ∨
    (a.importance = b.importance ∧ b.useCount ≤ a.useCount)))

instance : IsTotal FactRow impUseGE := by
  constructor
  intro a b
  rcases lt_trichotomy a.importance b.importance with h | h | h
  · exact Or.inr (Or.inl h)
  · rcases le_total b.useCount a.useCount with h' | h'
    · exact Or.inl (Or.inr ⟨h, h'⟩)
    · exact Or.inr (Or.inr ⟨h.symm, h'⟩)
  · exact Or.inl (Or.inl h)

instance : IsTrans FactRow impUseGE := by
  constructor
  intro a b c hab hbc
  rcases hab with h1 | ⟨h1, h1'⟩
  · rcases hbc with h2 | ⟨h2, _⟩
    · exact Or.inl (lt_trans h2 h1)
    · exact Or.inl (h2 ▸ h1)
  · rcases hbc with h2 | ⟨h2, h2'⟩
    · exact Or.inl (h1 ▸ h2)
    · exact Or.inr ⟨h1.trans h2, le_trans h2' h1'⟩

/-- `pruneRedundantEdges` from the source: for every
`(subjectId, predicate, objectId)` triple with non-null object occurring more
than once, keep only the row ranked first by importance then use count,
deleting the rest. -/
def pruneRedundantEdges (s : CortexStore) : CortexStore × Nat :=
  let withObj := s.facts.filter (fun f => f.objectId ≠ none)
  let triples := jsDedup (withObj.map (fun f => (f.subjectId, f.predicate, f.objectId)))
  let groups := triples.filter (fun t =>
    1 < (withObj.filter (fun f => (f.subjectId, f.predicate, f.objectId) = t)).length)
  groups.foldl (fun acc t =>
    let dups := (acc.1.facts.filter
      (fun f => (f.subjectId, f.predicate, f.objectId) = t)).insertionSort impUseGE
    match dups with
    | [] => acc
    | _ :: rest =>
      ({ acc.1 with facts := acc.1.facts.filter (fun f => f.id ∉ rest.map FactRow.id) },
        acc.2 + rest.length)) (s, 0)

/-- `ORDER BY createdAt ASC` as a relation. -/
def createdLE (a b : FactRow) : Prop := a.createdAt ≤ b.createdAt

instance : DecidableRel createdLE := fun a b =>
  inferInstanceAs (Decidable (a.createdAt ≤ b.createdAt))

instance : IsTotal FactRow createdLE := ⟨fun a b => le_total a.createdAt b.createdAt⟩

instance : IsTrans FactRow createdLE := ⟨fun _ _ _ h1 h2 => le_trans h1 h2⟩

/-- `summarizeOldFacts` from the source: semantic facts older than 90 days
with importance above `0.3` and use count above `3` get their content (when
at least 50 characters) replaced by a bracketed 100-character summary. -/
def summarizeOldFacts (s : CortexStore) (now : Int) : CortexStore × Nat :=
  let oldFacts := (s.facts.filter (fun f =>
    f.tier = .semantic ∧ 3/10 < f.importance ∧ 3 < f.useCount ∧
      f.createdAt < now - 7776000000)).insertionSort createdLE
  oldFacts.foldl (fun acc fact =>
    if fact.content.length < 50 then acc
    else
      let summary := "[Summarized: " ++ String.mk (fact.content.data.take 100) ++ "...]"
      ({ acc.1 with facts := acc.1.facts.map (fun f =>
          if f.id = fact.id then { f with content := summary } else f) },
        acc.2 + 1)) (s, 0)

/-- `compressMemory` from the source: merge similar facts, prune redundant
edges, summarize old facts; return the sum of the three counts. -/
def compressMemory (s : CortexStore) (now : Int) : CortexStore × Nat :=
  let m := mergeSimilarFacts s
  let p := pruneRedundantEdges m.1
  let z := summarizeOldFacts p.1 now
  (z.1, m.2 + p.2 + z.2)

/-- `refreshPool` from the source: re-run `retrieve` on the current topics
when any are set (default options). -/
def refreshPool (eng : Engine) (now : Int) : Engine :=
  if eng.currentTopics.isEmpty then eng else (retrieve eng eng.currentTopics {} now).1

/-- The `{contradictions, entities, compressed}` record returned by
`reflect()`. -/
structure ReflectResult where
  contradictions : Nat
  entities : Nat
  compressed : Nat
deriving DecidableEq, Repr

/-- `reflect()` from the source: decay, contradiction detection, duplicate
entity consolidation (over the entities snapshot read after decay),
memory compression, pool refresh, and a reflection-log row.  Returns the
contradiction-pair count, the pre-consolidation entity count, and the
compression count. -/
def reflect (eng : Engine) (expQ : ℚ → ℚ) (now : Int) : Engine × ReflectResult :=
  let s1 := applyDecayQ expQ eng.store now
  let dc := detectContradictions s1 now
  let entitiesCount := dc.1.entities.length
  let s3 := consolidateEntities dc.1
  let cm := compressMemory s3 now
  let eng1 := refreshPool { eng with store := cm.1 } now
  let s5 := { eng1.store with reflections :=
    eng1.store.reflections ++ [⟨"reflect", .reflectRun dc.2 cm.2, now⟩] }
  ({ eng1 with store := s5 }, ⟨dc.2, entitiesCount, cm.2⟩)

/-! # Theorems -/

/-- The fact inserted by `addFact` is the last row of the facts table, and
its ttl is `addFactStoredTtl`. -/
theorem addFact_last_ttl (s : CortexStore) (p : AddFactParams) (now : Int) :
    ((addFact s p now).1.facts.getLast?).map FactRow.ttl =
      some (addFactStoredTtl p.tier p.ttl) := by
  unfold addFact
  rcases p.object with _ | o
  · simp
  · by_cases ho : o = "" <;> simp [ho]

/-! ## C6 — episodic default TTL (corrected) -/

/-- Fixture: `addFact` parameters for an episodic fact with an explicit
`ttl: 0`. -/
def paramsEpisodicTtl0 : AddFactParams :=
  { subject := "a", predicate := "is", content := "c", tier := .episodic, ttl := some 0 }

/-- C6 counterexample: supplying the explicit TTL `0` to an episodic
`addFact` stores the 7-day default, not the supplied value `0` — refuting
"when an explicit TTL is supplied, that value is stored instead" at this
input. -/
theorem addFact_ttl_zero_counterexample :
    ((addFact {} paramsEpisodicTtl0 0).1.facts.map FactRow.ttl = [some 604800000]) ∧
      (some (604800000 : Int) ≠ some (0 : Int)) := by
  constructor
  · rfl
  · decide

/-- C6 (amended): an episodic `addFact` with no TTL supplied stores exactly
604800000 ms; an explicit *nonzero* TTL is stored as given. -/
theorem addFact_episodic_default_ttl (s : CortexStore) (p : AddFactParams) (now : Int) :
    (p.tier = .episodic → p.ttl = none →
      ((addFact s p now).1.facts.getLast?).map FactRow.ttl = some (some 604800000)) ∧
    (∀ t : Int, p.ttl = some t → t ≠ 0 →
      ((addFact s p now).1.facts.getLast?).map FactRow.ttl = some (some t)) := by
  constructor
  · intro htier httl
    rw [addFact_last_ttl, htier, httl]
    rfl
  · intro t httl ht
    rw [addFact_last_ttl, httl]
    simp [addFactStoredTtl, ht]

/-- Fixture: episodic `addFact` parameters with no TTL. -/
def paramsEpisodicNoTtl : AddFactParams :=
  { subject := "a", predicate := "is", content := "c", tier := .episodic }

/-- Fixture: `addFact` parameters with an explicit nonzero TTL. -/
def paramsTtl5 : AddFactParams :=
  { subject := "a", predicate := "is", content := "c", tier := .episodic, ttl := some 5 }

/-- Witness for C6: the amended theorem applied at concrete inputs. -/
theorem addFact_episodic_default_ttl_witness :
    ((addFact {} paramsEpisodicNoTtl 0).1.facts.getLast?).map FactRow.ttl =
        some (some 604800000) ∧
      ((addFact {} paramsTtl5 0).1.facts.getLast?).map FactRow.ttl = some (some 5) :=
  ⟨(addFact_episodic_default_ttl {} paramsEpisodicNoTtl 0).1 rfl rfl,
    (addFact_episodic_default_ttl {} paramsTtl5 0).2 5 rfl (by decide)⟩

/-! ## C9 — explicit `ttl: 0` handling (corrected) -/

/-- Fixture: the same explicit-zero parameters at a second subject, used by
the C9 counterexample. -/
def paramsEpisodicTtl0B : AddFactParams :=
  { subject := "b", predicate := "is", content := "c", tier := .episodic, ttl := some 0 }

/-- C9 counterexample: for the episodic tier an explicit `ttl: 0` is stored
as the 7-day default, not as `NULL` — refuting the claim's "for any tier, an
explicit ttl of 0 is stored as null" at tier `episodic`. -/
theorem addFact_ttl_zero_not_null_counterexample :
    ((addFact {} paramsEpisodicTtl0B 0).1.facts.map FactRow.ttl = [some 604800000]) ∧
      (some (604800000 : Int) ≠ (none : Option Int)) := by
  constructor
  · rfl
  · decide

/-- C9 (amended): an episodic `addFact` with explicit `ttl: 0` stores the
7-day default (the `!ttl` check treats `0` as not supplied); for any
*non-episodic* tier an explicit `ttl: 0` is stored as `NULL` (the
`effectiveTtl || null` coercion). -/
theorem addFact_ttl_zero_semantics (s : CortexStore) (p : AddFactParams) (now : Int) :
    (p.tier = .episodic → p.ttl = some 0 →
      ((addFact s p now).1.facts.getLast?).map FactRow.ttl = some (some 604800000)) ∧
    (p.tier ≠ .episodic → p.ttl = some 0 →
      ((addFact s p now).1.facts.getLast?).map FactRow.ttl = some none) := by
  constructor
  · intro htier httl
    rw [addFact_last_ttl, htier, httl]
    rfl
  · intro htier httl
    rw [addFact_last_ttl, httl]
    simp [addFactStoredTtl, htier]

/-- Fixture: semantic-tier parameters with explicit `ttl: 0`. -/
def paramsSemanticTtl0 : AddFactParams :=
  { subject := "a", predicate := "is", content := "c", tier := .semantic, ttl := some 0 }

/-- Witness for C9: the amended theorem applied at concrete inputs. -/
theorem addFact_ttl_zero_semantics_witness :
    ((addFact {} paramsEpisodicTtl0 0).1.facts.getLast?).map FactRow.ttl =
        some (some 604800000) ∧
      ((addFact {} paramsSemanticTtl0 0).1.facts.getLast?).map FactRow.ttl = some none :=
  ⟨(addFact_ttl_zero_semantics {} paramsEpisodicTtl0 0).1 rfl rfl,
    (addFact_ttl_zero_semantics {} paramsSemanticTtl0 0).2 (by decide) rfl⟩

/-! ## C10 — `useFact` on a missing id (confirmed) -/

/-- C10: `useFact` on a fact id not present in the store returns without an
error and leaves the whole store — every entity and every fact — unchanged. -/
theorem useFact_missing_id_noop (s : CortexStore) (factId : Nat) (now : Int)
    (h : factId ∉ s.facts.map FactRow.id) : useFact s factId now = s := by
  have hf : getFact s factId = none := by
    unfold getFact
    apply List.find?_eq_none.mpr
    intro f hfm
    simp only [decide_eq_true_eq]
    intro he
    exact h (he ▸ List.mem_map_of_mem FactRow.id hfm)
  unfold useFact
  rw [hf]

/-- Fixture: a one-fact store for the C10 witness. -/
def storeOneFact : CortexStore :=
  { entities := [⟨1, "X", "x", .other, ["X"], 1/2, 0⟩],
    facts := [⟨1, 1, "is", none, "c", .structural, 8/10, 1/2, "conversation", 0, 0, 0, none⟩],
    nextEntityId := 2, nextFactId := 2 }

/-- Witness for C10: the theorem applied at a concrete store and missing id. -/
theorem useFact_missing_id_noop_witness :
    (99 ∉ storeOneFact.facts.map FactRow.id) ∧
      useFact storeOneFact 99 5 = storeOneFact :=
  ⟨by decide, useFact_missing_id_noop storeOneFact 99 5 (by decide)⟩

/-! ## C8 — vector-error fallback (confirmed) -/

/-- C8: with a vector backend whose `searchByVector` fails,
`hybridRetrieval` returns exactly the graph-only `retrieve` results (the
`catch` arm); moreover `retrieve` never reads `useVectors` at all, so
`retrieve(topics, {useVectors: true})` is identical to graph-only retrieval
unconditionally. -/
theorem retrieve_vector_error_fallback (eng : Engine) (topics : List String)
    (poolSize : Nat) (ps : Option Nat) (now : Int) (msg : String) :
    (hybridRetrieval eng (fun _ _ => Except.error msg) topics poolSize now =
      retrieve eng topics { useVectors := false, poolSize := some poolSize } now) ∧
    (retrieve eng topics { useVectors := true, poolSize := ps } now =
      retrieve eng topics { useVectors := false, poolSize := ps } now) :=
  ⟨rfl, rfl⟩

/-! ## C2 — decay monotonicity (corrected)

The decay formula `base + (importance − base)·exp(−rate·hours)` relaxes
importance *toward* the tier base: for a fact whose importance lies below
its tier's base importance it strictly increases. -/

/-- C2 counterexample: an episodic fact (base importance `0.3`) with stored
importance `0.1`, last used one hour ago, ends `applyDecay` with a *larger*
stored importance (and is not deleted) — refuting "applyDecay never
increases any fact's importance" at this input. -/
theorem applyDecay_not_monotone_below_base :
    (1/10 : ℝ) < decayNewImportance .episodic (1/10) 0 3600000 ∧
      decayOutcome .episodic (1/10) 0 3600000 =
        some (decayNewImportance .episodic (1/10) 0 3600000) := by
  have h1 : decayNewImportance .episodic (1/10) 0 3600000
      = 3/10 + (1/10 - 3/10) * Real.exp (-(1/10)) := by
    show ((TIER_CONFIG .episodic).baseImportance : ℝ) +
        ((1/10 : ℝ) - ((TIER_CONFIG .episodic).baseImportance : ℝ)) *
          Real.exp (-((TIER_CONFIG .episodic).decayRate : ℝ) * (((3600000 : ℝ) - 0) / 3600000))
      = 3/10 + (1/10 - 3/10) * Real.exp (-(1/10))
    norm_num [TIER_CONFIG]
  have hexp : Real.exp (-(1/10 : ℝ)) < 1 := Real.exp_lt_one_iff.mpr (by norm_num)
  have hpos : (0 : ℝ) < Real.exp (-(1/10 : ℝ)) := Real.exp_pos _
  have hgt : (1/10 : ℝ) < decayNewImportance .episodic (1/10) 0 3600000 := by
    rw [h1]
    nlinarith
  refine ⟨hgt, ?_⟩
  show (if decayNewImportance .episodic (1/10) 0 3600000 < 1/10 then (none : Option ℝ)
    else some (decayNewImportance .episodic (1/10) 0 3600000)) =
      some (decayNewImportance .episodic (1/10) 0 3600000)
  rw [if_neg (not_lt.mpr hgt.le)]

/-- C2 (amended): for a fact whose importance is at least its tier's base
importance and whose `lastUsed` is not in the future, `applyDecay` never
increases the stored importance: a surviving fact's new importance is at
most the old one (deletion trivially stores nothing larger). -/
theorem applyDecay_monotone_above_base (tier : MemoryTier) (importance lastUsed now : ℝ)
    (hbase : ((TIER_CONFIG tier).baseImportance : ℝ) ≤ importance)
    (htime : lastUsed ≤ now) :
    ∀ v, decayOutcome tier importance lastUsed now = some v → v ≤ importance := by
  have hr : (0 : ℝ) < ((TIER_CONFIG tier).decayRate : ℝ) := by
    cases tier <;> norm_num [TIER_CONFIG]
  have hh : (0 : ℝ) ≤ (now - lastUsed) / 3600000 := by
    apply div_nonneg <;> linarith
  have hargle : -((TIER_CONFIG tier).decayRate : ℝ) * ((now - lastUsed) / 3600000) ≤ 0 := by
    nlinarith
  have hexp1 :
      Real.exp (-((TIER_CONFIG tier).decayRate : ℝ) * ((now - lastUsed) / 3600000)) ≤ 1 :=
    Real.exp_le_one_iff.mpr hargle
  have hexp0 :
      (0 : ℝ) < Real.exp (-((TIER_CONFIG tier).decayRate : ℝ) * ((now - lastUsed) / 3600000)) :=
    Real.exp_pos _
  have hprod := mul_nonneg (sub_nonneg.mpr hbase) (sub_nonneg.mpr hexp1)
  have hkey : decayNewImportance tier importance lastUsed now ≤ importance := by
    show ((TIER_CONFIG tier).baseImportance : ℝ) +
        (importance - ((TIER_CONFIG tier).baseImportance : ℝ)) *
          Real.exp (-((TIER_CONFIG tier).decayRate : ℝ) * ((now - lastUsed) / 3600000))
      ≤ importance
    nlinarith [hprod]
  intro v hv
  have hv' : (if decayNewImportance tier importance lastUsed now < 1/10 then (none : Option ℝ)
      else some (decayNewImportance tier importance lastUsed now)) = some v := hv
  by_cases hlt : decayNewImportance tier importance lastUsed now < 1/10
  · rw [if_pos hlt] at hv'
    exact absurd hv' (by simp)
  · rw [if_neg hlt] at hv'
    rw [Option.some.injEq] at hv'
    rw [← hv']
    exact hkey

/-- Witness for C2: the amended theorem applied at a concrete semantic fact
with importance `0.7` (above the base `0.6`) used just now. -/
theorem applyDecay_monotone_above_base_witness :
    (((TIER_CONFIG .semantic).baseImportance : ℝ) ≤ (7/10 : ℝ)) ∧ ((0 : ℝ) ≤ (0 : ℝ)) ∧
      ∀ v, decayOutcome .semantic (7/10) 0 0 = some v → v ≤ (7/10 : ℝ) :=
  ⟨by norm_num [TIER_CONFIG], le_refl (0 : ℝ),
    applyDecay_monotone_above_base .semantic (7/10) 0 0
      (by norm_num [TIER_CONFIG]) (le_refl (0 : ℝ))⟩

/-! ## C1 — duplicate-entity consolidation (code bug)

The consolidation loop rewrites `facts.subjectId` to the survivor, but the
`objectId` rewrite is guarded by `if (entity.objectId)`, and entity rows have
no `objectId` column: the guard is always falsy, the rewrite never runs, and
deleting the duplicate leaves facts whose `objectId` dangles. -/

/-- Fixture: two entities sharing `canonicalName` "x" and one fact whose
`objectId` references the duplicate (id 2). -/
def storeDupEntities : CortexStore :=
  { entities := [⟨1, "X", "x", .other, ["X"], 1/2, 0⟩, ⟨2, "x", "x", .other, ["x"], 1/2, 0⟩],
    facts := [⟨1, 1, "is", some 2, "c", .structural, 8/10, 1/2, "conversation", 0, 0, 0, none⟩],
    nextEntityId := 3, nextFactId := 2 }

/-- C1 (exhibiting the bug): consolidating `storeDupEntities` keeps the
first-seen entity (id 1) and deletes the duplicate (id 2), but the fact's
`objectId` still reads 2 — it was never rewritten to the survivor — so the
store is left with a dangling `objectId` reference. -/
theorem consolidateEntities_dangling_objectId :
    ((consolidateEntities storeDupEntities).entities.map EntityRow.id = [1]) ∧
      ((consolidateEntities storeDupEntities).facts.map FactRow.objectId = [some 2]) ∧
      ((consolidateEntities storeDupEntities).entities.find? (fun e => e.id = 2) = none) := by
  refine ⟨rfl, rfl, rfl⟩

/-! ## C3 — contradiction rows vs returned count (corrected)

`detectContradictions` inserts one row per differing-content pair, but
*returns* the number of all `(subjectId, predicate)`-sharing ordered pairs,
content ignored; `reflect()` passes that count through. -/

/-- Fixture: two structural facts with the same subject, predicate and
content (`lastUsed = 0`, so a reflection at `now = 0` computes
`exp(0) = 1`). -/
def storeSamePair : CortexStore :=
  { entities := [⟨1, "X", "x", .other, ["X"], 1/2, 0⟩],
    facts := [⟨1, 1, "is", none, "c", .structural, 8/10, 1/2, "conversation", 0, 0, 0, none⟩,
      ⟨2, 1, "is", none, "c", .structural, 8/10, 1/2, "conversation", 0, 0, 0, none⟩],
    nextEntityId := 2, nextFactId := 3 }

/-- C3 counterexample: on a store holding two facts with equal content
sharing `(subjectId, predicate)`, `reflect()` (here with `expQ` the exact
value of `Math.exp` at the only argument reached, `exp 0 = 1`) returns
`contradictions = 1` while zero contradiction rows were recorded — refuting
"the contradictions count returned by reflect() equals the number of
differing-content pairs recorded". -/
theorem reflect_contradiction_count_mismatch :
    ((reflect { store := storeSamePair } (fun _ => 1) 0).2.contradictions = 1) ∧
      ((reflect { store := storeSamePair } (fun _ => 1) 0).1.store.contradictions.length
        = 0) := by
  refine ⟨by with_unfolding_all decide, by with_unfolding_all decide⟩

/-- The insertion loop of `detectContradictions`, reduced to a filter: only
the contradictions table grows, by exactly the differing-content pairs. -/
theorem detectContradictions_foldl (pairs : List (FactRow × FactRow)) (acc : CortexStore)
    (now : Int) :
    pairs.foldl (contradictionStep now) acc =
    { acc with contradictions := acc.contradictions ++
        ((pairs.filter (fun p => p.1.content ≠ p.2.content)).map
          (fun p => ⟨p.1.id, p.2.id, now⟩)) } := by
  induction pairs generalizing acc with
  | nil => simp
  | cons p ps ih =>
    simp only [List.foldl_cons, List.filter_cons, contradictionStep]
    by_cases h : p.1.content = p.2.content
    · have hcond : ¬ (p.1.content ≠ p.2.content) := fun hne => hne h
      rw [if_neg hcond, if_neg (by simpa using hcond)]
      exact ih acc
    · rw [if_pos h, if_pos (by simpa using h)]
      rw [ih]
      simp [List.append_assoc]

/-- C3 (amended): `detectContradictions` mutates no fact and no entity,
appends exactly one contradictions row per ordered `(f1.id < f2.id)` pair
sharing `(subjectId, predicate)` with differing content, but *returns* the
count of all such pairs regardless of content; `reflect()` returns that same
count (computed on the post-decay facts). -/
theorem detectContradictions_rows_and_count (s : CortexStore) (now : Int) (eng : Engine)
    (expQ : ℚ → ℚ) :
    ((detectContradictions s now).1.facts = s.facts) ∧
    ((detectContradictions s now).1.entities = s.entities) ∧
    ((detectContradictions s now).1.contradictions = s.contradictions ++
      ((contradictionPairs s.facts).filter (fun p => p.1.content ≠ p.2.content)).map
        (fun p => ⟨p.1.id, p.2.id, now⟩)) ∧
    ((detectContradictions s now).2 = (contradictionPairs s.facts).length) ∧
    ((reflect eng expQ now).2.contradictions =
      (contradictionPairs (applyDecayQ expQ eng.store now).facts).length) := by
  refine ⟨?_, ?_, ?_, rfl, rfl⟩
  · show ((contradictionPairs s.facts).foldl (contradictionStep now) s).facts = s.facts
    rw [detectContradictions_foldl]
  · show ((contradictionPairs s.facts).foldl (contradictionStep now) s).entities = s.entities
    rw [detectContradictions_foldl]
  · show ((contradictionPairs s.facts).foldl (contradictionStep now) s).contradictions =
      s.contradictions ++ ((contradictionPairs s.facts).filter
        (fun p => p.1.content ≠ p.2.content)).map (fun p => ⟨p.1.id, p.2.id, now⟩)
    rw [detectContradictions_foldl]

/-! ## C4 — similar-fact merging (corrected)

Each firing pair applies update values taken from the *snapshot* read before
the loop, and updates/deletes rows by id against the live table.  With a
single qualifying pair the claim's field formulas hold exactly; with
overlapping qualifying pairs a later pair overwrites the survivor with stale
snapshot values, so the claimed final values fail. -/

theorem mergeStep_not_qualify (acc : CortexStore × Nat) (p : FactRow × FactRow)
    (h : ¬ qualifies p.1 p.2) : mergeStep acc p = acc := by
  unfold mergeStep
  by_cases h1 : p.1.subjectId = p.2.subjectId ∧ p.1.predicate = p.2.predicate
  · rw [if_pos h1, if_neg (fun hs => h ⟨h1.1, h1.2, hs⟩)]
  · rw [if_neg h1]

theorem mergeStep_qualify (acc : CortexStore × Nat) (p : FactRow × FactRow)
    (h : qualifies p.1 p.2) :
    mergeStep acc p =
      ({ acc.1 with facts := mergeUpdatedFacts p.1 p.2 acc.1.facts }, acc.2 + 1) := by
  unfold mergeStep
  rw [if_pos ⟨h.1, h.2.1⟩, if_pos h.2.2]

theorem mergeFold_not_qualify (pairs : List (FactRow × FactRow)) (acc : CortexStore × Nat)
    (h : ∀ p ∈ pairs, ¬ qualifies p.1 p.2) : pairs.foldl mergeStep acc = acc := by
  induction pairs generalizing acc with
  | nil => rfl
  | cons p ps ih =>
    rw [List.foldl_cons, mergeStep_not_qualify _ _ (h p (List.mem_cons_self p ps))]
    exact ih acc (fun q hq => h q (List.mem_cons_of_mem p hq))

/-- The merge `UPDATE`/`DELETE` pair introduces no new fact id. -/
theorem mem_mergeUpdatedFacts_id (f1 f2 : FactRow) (facts : List FactRow) (f : FactRow)
    (h : f ∈ mergeUpdatedFacts f1 f2 facts) : f.id ∈ facts.map FactRow.id := by
  unfold mergeUpdatedFacts at h
  have h1 := List.mem_of_mem_filter h
  rw [List.mem_map] at h1
  obtain ⟨g, hg, hgf⟩ := h1
  rw [List.mem_map]
  refine ⟨g, hg, ?_⟩
  by_cases hcase : g.id = f1.id
  · rw [if_pos hcase] at hgf
    rw [← hgf]
  · rw [if_neg hcase] at hgf
    rw [hgf]

theorem mergeStep_preserves_absent (acc : CortexStore × Nat) (p : FactRow × FactRow)
    (j : Nat) (h : j ∉ acc.1.facts.map FactRow.id) :
    j ∉ (mergeStep acc p).1.facts.map FactRow.id := by
  by_cases hq : qualifies p.1 p.2
  · rw [mergeStep_qualify _ _ hq]
    intro hmem
    rw [List.mem_map] at hmem
    obtain ⟨f, hf, hfj⟩ := hmem
    exact h (hfj ▸ mem_mergeUpdatedFacts_id p.1 p.2 acc.1.facts f hf)
  · rw [mergeStep_not_qualify _ _ hq]
    exact h

theorem mergeFold_preserves_absent (pairs : List (FactRow × FactRow))
    (acc : CortexStore × Nat) (j : Nat) (h : j ∉ acc.1.facts.map FactRow.id) :
    j ∉ (pairs.foldl mergeStep acc).1.facts.map FactRow.id := by
  induction pairs generalizing acc with
  | nil => exact h
  | cons p ps ih =>
    rw [List.foldl_cons]
    exact ih _ (mergeStep_preserves_absent acc p j h)

/-- A firing merge step deletes the row with the second fact's id. -/
theorem mergeStep_deletes (acc : CortexStore × Nat) (p : FactRow × FactRow)
    (hq : qualifies p.1 p.2) : p.2.id ∉ (mergeStep acc p).1.facts.map FactRow.id := by
  rw [mergeStep_qualify _ _ hq]
  intro hmem
  rw [List.mem_map] at hmem
  obtain ⟨f, hf, hid⟩ := hmem
  unfold mergeUpdatedFacts at hf
  have hmemf := List.of_mem_filter hf
  simp only [decide_eq_true_eq] at hmemf
  exact hmemf hid

/-- Both components of a pair produced by `allPairs` come from the list. -/
theorem mem_allPairs {α : Type} {l : List α} {a b : α} (h : (a, b) ∈ allPairs l) :
    a ∈ l ∧ b ∈ l := by
  induction l with
  | nil => cases h
  | cons x xs ih =>
    simp only [allPairs, List.mem_append, List.mem_map] at h
    rcases h with ⟨y, hy, hxy⟩ | h
    · cases hxy
      exact ⟨List.mem_cons_self _ _, List.mem_cons_of_mem _ hy⟩
    · obtain ⟨ha, hb⟩ := ih h
      exact ⟨List.mem_cons_of_mem _ ha, List.mem_cons_of_mem _ hb⟩

/-- `allPairs` of a duplicate-free list is duplicate-free. -/
theorem allPairs_nodup {α : Type} {l : List α} (h : l.Nodup) : (allPairs l).Nodup := by
  induction l with
  | nil => exact List.nodup_nil
  | cons x xs ih =>
    obtain ⟨hx, hxs⟩ := List.nodup_cons.mp h
    refine List.Nodup.append ?_ (ih hxs) ?_
    · exact hxs.map (fun a b hab => ((Prod.mk.injEq x a x b).mp hab).2)
    · intro p hp1 hp2
      rw [List.mem_map] at hp1
      obtain ⟨y, _, hyx⟩ := hp1
      subst hyx
      exact hx (mem_allPairs hp2).1

/-- C4 (amended): for any pair of the semantic snapshot satisfying the merge
condition, `mergeSimilarFacts` unconditionally deletes the higher-id (second)
fact; and when the pair is the *only* qualifying pair of the snapshot (ids
duplicate-free), the surviving lower-id fact carries exactly
`confidence = min(1, c1+c2)`, `importance = max`, `useCount = sum`,
`lastUsed = max`, every other fact is untouched, and the merge count is 1. -/
theorem mergeSimilarFacts_single_pair (s : CortexStore) (f1 f2 : FactRow)
    (hmem : (f1, f2) ∈ allPairs (s.facts.filter (fun f => f.tier = .semantic)))
    (hq : qualifies f1 f2) :
    (f2.id ∉ (mergeSimilarFacts s).1.facts.map FactRow.id) ∧
    ((s.facts.map FactRow.id).Nodup →
      (∀ p ∈ allPairs (s.facts.filter (fun f => f.tier = .semantic)),
        p ≠ (f1, f2) → ¬ qualifies p.1 p.2) →
      (mergeSimilarFacts s).1.facts = mergeUpdatedFacts f1 f2 s.facts ∧
        (mergeSimilarFacts s).2 = 1) := by
  obtain ⟨l1, l2, heq⟩ := List.append_of_mem hmem
  constructor
  · unfold mergeSimilarFacts
    rw [heq, List.foldl_append, List.foldl_cons]
    exact mergeFold_preserves_absent l2 _ _ (mergeStep_deletes _ _ hq)
  · intro hnodup huniq
    have hfactsN : s.facts.Nodup := hnodup.of_map
    have hsnapN : (s.facts.filter (fun f => f.tier = .semantic)).Nodup := hfactsN.filter _
    have hpairsN := allPairs_nodup hsnapN
    rw [heq] at hpairsN
    obtain ⟨hN1, hN2, hdisj⟩ := List.nodup_append.mp hpairsN
    have hnotl1 : (f1, f2) ∉ l1 := fun hin =>
      (List.nodup_cons.mp hN2).1 (absurd (hdisj hin) (by simp))
    have hnotl2 : (f1, f2) ∉ l2 := (List.nodup_cons.mp hN2).1
    have hl1 : ∀ p ∈ l1, ¬ qualifies p.1 p.2 := fun p hp =>
      huniq p (heq ▸ List.mem_append_left _ hp)
        (fun hpe => hnotl1 (hpe ▸ hp))
    have hl2 : ∀ p ∈ l2, ¬ qualifies p.1 p.2 := fun p hp =>
      huniq p (heq ▸ List.mem_append_right _ (List.mem_cons_of_mem _ hp))
        (fun hpe => hnotl2 (hpe ▸ hp))
    unfold mergeSimilarFacts
    rw [heq, List.foldl_append, mergeFold_not_qualify l1 (s, 0) hl1, List.foldl_cons,
      mergeStep_qualify (s, 0) (f1, f2) hq, mergeFold_not_qualify l2 _ hl2]
    exact ⟨rfl, rfl⟩

/-- Fixture: three identical-content semantic facts sharing
`(subjectId, predicate)` with confidences `0.4`, `0.3`, `0.5`. -/
def mfA : FactRow := ⟨1, 1, "is", none, "x", .semantic, 6/10, 2/5, "conversation", 0, 0, 0, none⟩

/-- Fixture: second similar fact (confidence `0.3`). -/
def mfB : FactRow := { mfA with id := 2, confidence := 3/10 }

/-- Fixture: third similar fact (confidence `0.5`). -/
def mfC : FactRow := { mfA with id := 3, confidence := 1/2 }

/-- Fixture: store holding the three pairwise-similar semantic facts. -/
def storeThreeSimilar : CortexStore :=
  { entities := [⟨1, "X", "x", .other, ["X"], 1/2, 0⟩],
    facts := [mfA, mfB, mfC], nextEntityId := 2, nextFactId := 4 }

/-- C4 counterexample: `(mfA, mfB)` is a qualifying semantic pair
(similarity 1 > 0.85), yet after `mergeSimilarFacts` the surviving fact 1
has confidence `0.9 = min(1, 0.4+0.5)` — the later pair `(mfA, mfC)`
overwrote it with stale snapshot values — not the claimed
`min(1, c1+c2) = 0.7`. -/
theorem mergeSimilarFacts_stale_snapshot_counterexample :
    (mfA ∈ storeThreeSimilar.facts) ∧ (mfB ∈ storeThreeSimilar.facts) ∧
      mfA.tier = .semantic ∧ mfB.tier = .semantic ∧ qualifies mfA mfB ∧
      ((mergeSimilarFacts storeThreeSimilar).1.facts.map
        (fun f => (f.id, f.confidence)) = [(1, 9/10)]) ∧
      ((9/10 : ℚ) ≠ min 1 (mfA.confidence + mfB.confidence)) := by
  with_unfolding_all decide

/-- Fixture: second fact for the two-fact witness store (distinct
importance, use count and lastUsed, to exercise every merged field). -/
def mfD : FactRow :=
  { mfA with id := 2, confidence := 3/10, importance := 7/10, useCount := 3, lastUsed := 5 }

/-- Fixture: store holding exactly one qualifying pair `(mfA, mfD)`. -/
def storeTwoSimilar : CortexStore :=
  { entities := [⟨1, "X", "x", .other, ["X"], 1/2, 0⟩],
    facts := [mfA, mfD], nextEntityId := 2, nextFactId := 3 }

/-- Witness for C4: the amended theorem applied to the two-fact store. -/
theorem mergeSimilarFacts_single_pair_witness :
    (mfD.id ∉ (mergeSimilarFacts storeTwoSimilar).1.facts.map FactRow.id) ∧
      ((mergeSimilarFacts storeTwoSimilar).1.facts =
          mergeUpdatedFacts mfA mfD storeTwoSimilar.facts ∧
        (mergeSimilarFacts storeTwoSimilar).2 = 1) :=
  have h := mergeSimilarFacts_single_pair storeTwoSimilar mfA mfD
    (by with_unfolding_all decide) (by with_unfolding_all decide)
  ⟨h.1, h.2 (by decide) (by with_unfolding_all decide)⟩

/-! ## C7 — pool bound, order and top-K (confirmed) -/

/-- The stable descending sort is sorted for its comparator preorder. -/
theorem sortDescBy_sorted {α : Type} (key : α → ℚ) (l : List α) :
    List.Sorted (keyGE key) (sortDescBy key l) :=
  List.sorted_insertionSort _ l

/-- The stable descending sort permutes its input. -/
theorem sortDescBy_perm {α : Type} (key : α → ℚ) (l : List α) :
    (sortDescBy key l).Perm l :=
  List.perm_insertionSort _ l

/-- Everything dropped past position `n` of the sorted list scores at most
everything kept. -/
theorem sortDescBy_drop_le_take {α : Type} (key : α → ℚ) (l : List α) (n : Nat) :
    ∀ y ∈ (sortDescBy key l).take n, ∀ x ∈ (sortDescBy key l).drop n, key x ≤ key y := by
  have hs := sortDescBy_sorted key l
  rw [← List.take_append_drop n (sortDescBy key l)] at hs
  exact (List.pairwise_append.mp hs).2.2

/-- C7: after any `retrieve(topics, options)` the persisted pool is entirely
rebuilt from the current facts: it holds at most `poolSize` rows, is sorted
descending by relevance score, every row carries the score of its fact
computed at the post-spread state (with `addedAt = now`), and every fact
left out of the pool scores no higher than any pooled row. -/
theorem retrieve_pool_topk (eng : Engine) (topics : List String)
    (options : RetrieveOptions) (now : Int) :
    ((retrieve eng topics options now).1.store.pool.length ≤
      options.poolSize.getD eng.poolSize) ∧
    ((retrieve eng topics options now).1.store.pool.Pairwise
      (fun p q => q.relevanceScore ≤ p.relevanceScore)) ∧
    (∀ p ∈ (retrieve eng topics options now).1.store.pool,
      ∃ f ∈ (retrieveScoringEngine eng topics now).store.facts, p.factId = f.id ∧
        p.relevanceScore = calculateRelevance (retrieveScoringEngine eng topics now) f now ∧
        p.addedAt = now) ∧
    (∀ f ∈ (retrieveScoringEngine eng topics now).store.facts,
      f.id ∉ (retrieve eng topics options now).1.store.pool.map PoolRow.factId →
      ∀ p ∈ (retrieve eng topics options now).1.store.pool,
        calculateRelevance (retrieveScoringEngine eng topics now) f now ≤
          p.relevanceScore) := by
  have hpool : (retrieve eng topics options now).1.store.pool =
      ((sortDescBy (fun p => p.2)
        ((retrieveScoringEngine eng topics now).store.facts.map
          (fun fact => (fact, calculateRelevance (retrieveScoringEngine eng topics now)
            fact now)))).take (options.poolSize.getD eng.poolSize)).map
        (fun p => PoolRow.mk p.1.id p.2 now) := rfl
  set eng2 := retrieveScoringEngine eng topics now with heng2
  set scored := eng2.store.facts.map
    (fun fact => (fact, calculateRelevance eng2 fact now)) with hscored
  set sorted := sortDescBy (fun p => (p : FactRow × ℚ).2) scored with hsorted
  set k := options.poolSize.getD eng.poolSize with hk
  refine ⟨?_, ?_, ?_, ?_⟩
  · rw [hpool, List.length_map, List.length_take]
    exact min_le_left _ _
  · rw [hpool, List.pairwise_map]
    exact List.Pairwise.sublist (List.take_sublist _ _) (sortDescBy_sorted _ _)
  · intro p hp
    rw [hpool, List.mem_map] at hp
    obtain ⟨q, hq, hqp⟩ := hp
    have hq1 : q ∈ sorted := List.mem_of_mem_take hq
    have hq2 : q ∈ scored := (sortDescBy_perm _ _).mem_iff.mp hq1
    rw [hscored, List.mem_map] at hq2
    obtain ⟨f, hf, hfq⟩ := hq2
    exact ⟨f, hf, by rw [← hqp, ← hfq], by rw [← hqp, ← hfq], by rw [← hqp]⟩
  · intro f hf hnot p hp
    have hsc : (f, calculateRelevance eng2 f now) ∈ scored := by
      rw [hscored, List.mem_map]
      exact ⟨f, hf, rfl⟩
    have hmem : (f, calculateRelevance eng2 f now) ∈ sorted :=
      (sortDescBy_perm _ _).mem_iff.mpr hsc
    have hnottake : (f, calculateRelevance eng2 f now) ∉ sorted.take k := by
      intro hin
      apply hnot
      rw [hpool, List.map_map, List.mem_map]
      exact ⟨(f, calculateRelevance eng2 f now), hin, rfl⟩
    have hdrop : (f, calculateRelevance eng2 f now) ∈ sorted.drop k := by
      have := (List.take_append_drop k sorted) ▸ hmem
      rcases List.mem_append.mp this with h | h
      · exact absurd h hnottake
      · exact h
    rw [hpool, List.mem_map] at hp
    obtain ⟨q, hq, hqp⟩ := hp
    have := sortDescBy_drop_le_take (fun p => (p : FactRow × ℚ).2) scored k q hq
      (f, calculateRelevance eng2 f now) hdrop
    rw [← hqp]
    exact this

/-! ## C5 — `resolveEntity` lookup order and tie-breaking (confirmed) -/

/-- The stable descending sort is empty iff its input is. -/
theorem sortDescBy_eq_nil_iff {α : Type} (key : α → ℚ) (l : List α) :
    sortDescBy key l = [] ↔ l = [] := by
  constructor
  · intro h
    have hp := sortDescBy_perm key l
    rw [h] at hp
    exact hp.symm.eq_nil
  · intro h
    rw [h]
    rfl

/-- Stability of the descending sort: its head is the *first* input element
achieving the maximal key — it bounds every input element, and every input
element strictly before it has a strictly smaller key. -/
theorem sortDescBy_head_first_max {α : Type} (key : α → ℚ) (l : List α) (x : α)
    (hx : (sortDescBy key l).head? = some x) :
    x ∈ l ∧ (∀ y ∈ l, key y ≤ key x) ∧
      ∃ l1 l2, l = l1 ++ x :: l2 ∧ ∀ y ∈ l1, key y < key x := by
  induction l generalizing x with
  | nil => cases hx
  | cons a t ih =>
    have hstep : sortDescBy key (a :: t) =
        List.orderedInsert (keyGE key) a (sortDescBy key t) := rfl
    rw [hstep] at hx
    cases hsort : sortDescBy key t with
    | nil =>
      have ht : t = [] := (sortDescBy_eq_nil_iff key t).mp hsort
      rw [hsort] at hx
      have hxa : x = a := by
        have : (List.orderedInsert (keyGE key) a []).head? = some a := rfl
        rw [this] at hx
        exact (Option.some.injEq _ _ ▸ hx).symm
      subst hxa
      subst ht
      exact ⟨List.mem_cons_self _ _, by simp, [], [], rfl, by simp⟩
    | cons h rest =>
      have hh : (sortDescBy key t).head? = some h := by rw [hsort]; rfl
      obtain ⟨hmemt, hmaxt, t1, t2, hteq, hltt⟩ := ih h hh
      rw [hsort] at hx
      by_cases hr : keyGE key a h
      · rw [List.orderedInsert, if_pos hr] at hx
        have hxa : x = a := by
          have : (a :: h :: rest).head? = some a := rfl
          rw [this] at hx
          exact (Option.some.injEq _ _ ▸ hx).symm
        subst hxa
        refine ⟨List.mem_cons_self _ _, ?_, [], t, rfl, by simp⟩
        intro y hy
        rcases List.mem_cons.mp hy with hy | hy
        · rw [hy]
        · exact le_trans (hmaxt y hy) hr
      · rw [List.orderedInsert, if_neg hr] at hx
        have hxh : x = h := by
          have : (h :: List.orderedInsert (keyGE key) a rest).head? = some h := rfl
          rw [this] at hx
          exact (Option.some.injEq _ _ ▸ hx).symm
        subst hxh
        have hah : key a < key x := lt_of_not_le hr
        refine ⟨List.mem_cons_of_mem _ hmemt, ?_, a :: t1, t2,
          by rw [hteq, List.cons_append], ?_⟩
        · intro y hy
          rcases List.mem_cons.mp hy with hy | hy
          · rw [hy]
            exact le_of_lt hah
          · exact hmaxt y hy
        · intro y hy
          rcases List.mem_cons.mp hy with hy | hy
          · rw [hy]
            exact hah
          · exact hltt y hy

/-- The per-entity branch of `findFuzzyMatches`'s `filterMap`. -/
theorem findFuzzyMatches_entry (nq : String) (threshold : ℚ) (en : EntityRow)
    (q : EntityRow × ℚ)
    (h : (if threshold ≤ entityMaxSimilarity nq en
        then some (en, entityMaxSimilarity nq en) else none) = some q) :
    q.1 = en ∧ q.2 = entityMaxSimilarity nq en ∧ threshold ≤ entityMaxSimilarity nq en := by
  by_cases hc : threshold ≤ entityMaxSimilarity nq en
  · rw [if_pos hc] at h
    obtain h := (Option.some.injEq _ _ ▸ h).symm
    exact ⟨by rw [h], by rw [h], hc⟩
  · rw [if_neg hc] at h
    cases h

/-- What the head of `findFuzzyMatches` satisfies: it is a stored entity at
or above the threshold whose best similarity bounds every other entity's,
and ties go to the entity with the smaller id (entities scanned in id
order). -/
theorem findFuzzyMatches_head (s : CortexStore) (query : String) (threshold : ℚ)
    (hsorted : s.entities.Pairwise (fun a b => a.id < b.id)) (e : EntityRow)
    (hx : (findFuzzyMatches s query threshold).head? = some e) :
    e ∈ s.entities ∧ threshold ≤ entityMaxSimilarity (normalizeName query) e ∧
      ∀ e' ∈ s.entities,
        entityMaxSimilarity (normalizeName query) e' ≤
          entityMaxSimilarity (normalizeName query) e ∧
        (entityMaxSimilarity (normalizeName query) e' =
          entityMaxSimilarity (normalizeName query) e → e.id ≤ e'.id) := by
  have hfm : findFuzzyMatches s query threshold =
      (sortDescBy (fun p => (p : EntityRow × ℚ).2) (s.entities.filterMap (fun en =>
        if threshold ≤ entityMaxSimilarity (normalizeName query) en
        then some (en, entityMaxSimilarity (normalizeName query) en) else none))).map
          (fun p => p.1) := rfl
  set nq := normalizeName query with hnq
  set ms := s.entities.filterMap (fun en =>
    if threshold ≤ entityMaxSimilarity nq en
    then some (en, entityMaxSimilarity nq en) else none) with hms
  rw [hfm, List.head?_map, Option.map_eq_some'] at hx
  obtain ⟨q, hq, hqe⟩ := hx
  obtain ⟨hqmem, hqmax, m1, m2, hmeq, hmlt⟩ :=
    sortDescBy_head_first_max (fun p => (p : EntityRow × ℚ).2) ms q hq
  obtain ⟨en, hen, henq⟩ := List.mem_filterMap.mp hqmem
  obtain ⟨hq1, hq2, hqth⟩ := findFuzzyMatches_entry nq threshold en q henq
  have hqe1 : q.1 = e := hqe
  have hmsorted : ms.Pairwise (fun p p' => (p : EntityRow × ℚ).1.id < p'.1.id) := by
    rw [hms]
    rw [List.pairwise_filterMap]
    refine hsorted.imp ?_
    intro a b hab p hp p' hp'
    obtain ⟨hp1, _, _⟩ := findFuzzyMatches_entry nq threshold a p hp
    obtain ⟨hp1', _, _⟩ := findFuzzyMatches_entry nq threshold b p' hp'
    rw [hp1, hp1']
    exact hab
  have hene : en = e := hq1.symm.trans hqe1
  have heE : e ∈ s.entities := hene ▸ hen
  have hq2e : q.2 = entityMaxSimilarity nq e := by rw [hq2, hene]
  have hqthe : threshold ≤ entityMaxSimilarity nq e := by rw [← hene]; exact hqth
  refine ⟨heE, hqthe, ?_⟩
  intro e' he'
  by_cases hth : threshold ≤ entityMaxSimilarity nq e'
  · have hmem' : (e', entityMaxSimilarity nq e') ∈ ms := by
      rw [hms]
      rw [List.mem_filterMap]
      exact ⟨e', he', by rw [if_pos hth]⟩
    have hle : entityMaxSimilarity nq e' ≤ entityMaxSimilarity nq e := by
      have h0 := hqmax _ hmem'
      rw [hq2e] at h0
      exact h0
    refine ⟨hle, ?_⟩
    intro htie
    rw [hmeq] at hmem'
    rcases List.mem_append.mp hmem' with hin | hin
    · exfalso
      have h1 := hmlt _ hin
      rw [hq2e] at h1
      exact absurd htie (ne_of_lt h1)
    · rcases List.mem_cons.mp hin with hin | hin
      · have h2 : e' = q.1 := congrArg Prod.fst hin
        rw [h2, hqe1]
      · rw [hmeq] at hmsorted
        have hq2m2 := (List.pairwise_append.mp hmsorted).2.1
        have h3 := (List.pairwise_cons.mp hq2m2).1 _ hin
        rw [hqe1] at h3
        exact le_of_lt h3
  · have hlt : entityMaxSimilarity nq e' < threshold := lt_of_not_le hth
    have hle : entityMaxSimilarity nq e' ≤ entityMaxSimilarity nq e :=
      le_trans (le_of_lt hlt) hqthe
    refine ⟨hle, ?_⟩
    intro htie
    rw [← htie] at hqthe
    exact absurd hlt (not_lt.mpr hqthe)

theorem resolveEntity_canonical_some (s : CortexStore) (query : String) (e : EntityRow)
    (h : s.entities.find? (fun en => en.canonicalName = normalizeName query) = some e) :
    resolveEntity s query = some e := by
  show (match s.entities.find? (fun en => en.canonicalName = normalizeName query) with
    | some e => some e
    | none =>
      match s.entities.find? (fun en => likeContains (aliasesJson en.aliases) query) with
      | some e => some e
      | none => (findFuzzyMatches s query (4/5)).head?) = some e
  rw [h]

theorem resolveEntity_alias_some (s : CortexStore) (query : String) (e : EntityRow)
    (hc : s.entities.find? (fun en => en.canonicalName = normalizeName query) = none)
    (h : s.entities.find? (fun en => likeContains (aliasesJson en.aliases) query) = some e) :
    resolveEntity s query = some e := by
  show (match s.entities.find? (fun en => en.canonicalName = normalizeName query) with
    | some e => some e
    | none =>
      match s.entities.find? (fun en => likeContains (aliasesJson en.aliases) query) with
      | some e => some e
      | none => (findFuzzyMatches s query (4/5)).head?) = some e
  rw [hc, h]

theorem resolveEntity_fuzzy (s : CortexStore) (query : String)
    (hc : s.entities.find? (fun en => en.canonicalName = normalizeName query) = none)
    (ha : s.entities.find? (fun en => likeContains (aliasesJson en.aliases) query) = none) :
    resolveEntity s query = (findFuzzyMatches s query (4/5)).head? := by
  show (match s.entities.find? (fun en => en.canonicalName = normalizeName query) with
    | some e => some e
    | none =>
      match s.entities.find? (fun en => likeContains (aliasesJson en.aliases) query) with
      | some e => some e
      | none => (findFuzzyMatches s query (4/5)).head?) =
    (findFuzzyMatches s query (4/5)).head?
  rw [hc, ha]

theorem findFuzzyMatches_eq_nil_iff (s : CortexStore) (query : String) (threshold : ℚ) :
    findFuzzyMatches s query threshold = [] ↔
      ∀ e ∈ s.entities, entityMaxSimilarity (normalizeName query) e < threshold := by
  have hfm : findFuzzyMatches s query threshold =
      (sortDescBy (fun p => (p : EntityRow × ℚ).2) (s.entities.filterMap (fun en =>
        if threshold ≤ entityMaxSimilarity (normalizeName query) en
        then some (en, entityMaxSimilarity (normalizeName query) en) else none))).map
          (fun p => p.1) := rfl
  rw [hfm]
  constructor
  · intro h
    have hsort := List.map_eq_nil_iff.mp h
    have hms := (sortDescBy_eq_nil_iff _ _).mp hsort
    intro e he
    have h0 := List.filterMap_eq_nil_iff.mp hms e he
    by_cases hth : threshold ≤ entityMaxSimilarity (normalizeName query) e
    · rw [if_pos hth] at h0
      cases h0
    · exact lt_of_not_le hth
  · intro h
    have hms : s.entities.filterMap (fun en =>
        if threshold ≤ entityMaxSimilarity (normalizeName query) en
        then some (en, entityMaxSimilarity (normalizeName query) en) else none) = [] :=
      List.filterMap_eq_nil_iff.mpr (fun e he => by rw [if_neg (not_le.mpr (h e he))])
    rw [hms]
    rfl

/-- C5: `resolveEntity` returns at most one entity (an `Option` drawn from
the store), trying in order: exact `canonicalName` match on the normalized
query; then SQLite-`LIKE` substring match of the query against the
serialized alias list; then fuzzy match at threshold `0.8`, ties broken by
higher similarity and then by lower entity id; it returns `none` exactly
when all three steps fail. -/
theorem resolveEntity_spec (s : CortexStore) (query : String)
    (hsorted : s.entities.Pairwise (fun a b => a.id < b.id)) :
    (∀ e, resolveEntity s query = some e → e ∈ s.entities) ∧
    ((∃ e ∈ s.entities, e.canonicalName = normalizeName query) →
      ∃ e, resolveEntity s query = some e ∧ e.canonicalName = normalizeName query) ∧
    ((∀ e ∈ s.entities, e.canonicalName ≠ normalizeName query) →
      (∃ e ∈ s.entities, likeContains (aliasesJson e.aliases) query = true) →
      ∃ e, resolveEntity s query = some e ∧
        likeContains (aliasesJson e.aliases) query = true) ∧
    (resolveEntity s query = none ↔
      (∀ e ∈ s.entities, e.canonicalName ≠ normalizeName query) ∧
      (∀ e ∈ s.entities, likeContains (aliasesJson e.aliases) query = false) ∧
      (∀ e ∈ s.entities, entityMaxSimilarity (normalizeName query) e < 4/5)) ∧
    ((∀ e ∈ s.entities, e.canonicalName ≠ normalizeName query) →
      (∀ e ∈ s.entities, likeContains (aliasesJson e.aliases) query = false) →
      ∀ e, resolveEntity s query = some e →
        4/5 ≤ entityMaxSimilarity (normalizeName query) e ∧
        ∀ e' ∈ s.entities,
          entityMaxSimilarity (normalizeName query) e' ≤
            entityMaxSimilarity (normalizeName query) e ∧
          (entityMaxSimilarity (normalizeName query) e' =
            entityMaxSimilarity (normalizeName query) e → e.id ≤ e'.id)) := by
  refine ⟨?_, ?_, ?_, ?_, ?_⟩
  · intro e h
    cases hcan : s.entities.find? (fun en => en.canonicalName = normalizeName query) with
    | some e0 =>
      rw [resolveEntity_canonical_some s query e0 hcan] at h
      cases h
      exact List.mem_of_find?_eq_some hcan
    | none =>
      cases halias : s.entities.find?
          (fun en => likeContains (aliasesJson en.aliases) query) with
      | some e0 =>
        rw [resolveEntity_alias_some s query e0 hcan halias] at h
        cases h
        exact List.mem_of_find?_eq_some halias
      | none =>
        rw [resolveEntity_fuzzy s query hcan halias] at h
        exact (findFuzzyMatches_head s query (4/5) hsorted e h).1
  · rintro ⟨e0, he0, hc0⟩
    have hsome : (s.entities.find?
        (fun en => en.canonicalName = normalizeName query)).isSome := by
      rw [List.find?_isSome]
      exact ⟨e0, he0, by simp [hc0]⟩
    obtain ⟨e1, hfind⟩ := Option.isSome_iff_exists.mp hsome
    have hp := List.find?_some hfind
    simp only [decide_eq_true_eq] at hp
    exact ⟨e1, resolveEntity_canonical_some s query e1 hfind, hp⟩
  · rintro h1 ⟨e0, he0, hl0⟩
    have hcan : s.entities.find?
        (fun en => en.canonicalName = normalizeName query) = none :=
      List.find?_eq_none.mpr (fun x hx => by simpa using h1 x hx)
    have hsome : (s.entities.find?
        (fun en => likeContains (aliasesJson en.aliases) query)).isSome := by
      rw [List.find?_isSome]
      exact ⟨e0, he0, hl0⟩
    obtain ⟨e1, hfind⟩ := Option.isSome_iff_exists.mp hsome
    have hp := List.find?_some hfind
    exact ⟨e1, resolveEntity_alias_some s query e1 hcan hfind, hp⟩
  · constructor
    · intro h
      cases hcan : s.entities.find?
          (fun en => en.canonicalName = normalizeName query) with
      | some e0 =>
        rw [resolveEntity_canonical_some s query e0 hcan] at h
        cases h
      | none =>
        cases halias : s.entities.find?
            (fun en => likeContains (aliasesJson en.aliases) query) with
        | some e0 =>
          rw [resolveEntity_alias_some s query e0 hcan halias] at h
          cases h
        | none =>
          refine ⟨?_, ?_, ?_⟩
          · intro e he
            have := List.find?_eq_none.mp hcan e he
            simpa using this
          · intro e he
            have := List.find?_eq_none.mp halias e he
            simpa using this
          · rw [resolveEntity_fuzzy s query hcan halias] at h
            exact (findFuzzyMatches_eq_nil_iff s query (4/5)).mp
              (List.head?_eq_none_iff.mp h)
    · rintro ⟨h1, h2, h3⟩
      have hcan : s.entities.find?
          (fun en => en.canonicalName = normalizeName query) = none :=
        List.find?_eq_none.mpr (fun e he => by simpa using h1 e he)
      have halias : s.entities.find?
          (fun en => likeContains (aliasesJson en.aliases) query) = none :=
        List.find?_eq_none.mpr (fun e he => by simp [h2 e he])
      rw [resolveEntity_fuzzy s query hcan halias]
      rw [List.head?_eq_none_iff]
      exact (findFuzzyMatches_eq_nil_iff s query (4/5)).mpr h3
  · intro h1 h2 e h
    have hcan : s.entities.find?
        (fun en => en.canonicalName = normalizeName query) = none :=
      List.find?_eq_none.mpr (fun x hx => by simpa using h1 x hx)
    have halias : s.entities.find?
        (fun en => likeContains (aliasesJson en.aliases) query) = none :=
      List.find?_eq_none.mpr (fun x hx => by simp [h2 x hx])
    rw [resolveEntity_fuzzy s query hcan halias] at h
    obtain ⟨_, hth, hbound⟩ := findFuzzyMatches_head s query (4/5) hsorted e h
    exact ⟨hth, hbound⟩

/-- Fixture: a two-entity store with ids in table order, for the C5
witness. -/
def storeResolve : CortexStore :=
  { entities := [⟨1, "Will", "will", .person, ["Will"], 1/2, 0⟩,
      ⟨2, "Open", "open", .project, ["Open"], 1/2, 0⟩],
    facts := [], nextEntityId := 3, nextFactId := 1 }

/-- Witness for C5: the theorem applied to a concrete store and query, its
sorted-ids hypothesis discharged by evaluation. -/
theorem resolveEntity_spec_witness :
    (∀ e, resolveEntity storeResolve "Will" = some e → e ∈ storeResolve.entities) ∧
    ((∃ e ∈ storeResolve.entities, e.canonicalName = normalizeName "Will") →
      ∃ e, resolveEntity storeResolve "Will" = some e ∧
        e.canonicalName = normalizeName "Will") ∧
    ((∀ e ∈ storeResolve.entities, e.canonicalName ≠ normalizeName "Will") →
      (∃ e ∈ storeResolve.entities, likeContains (aliasesJson e.aliases) "Will" = true) →
      ∃ e, resolveEntity storeResolve "Will" = some e ∧
        likeContains (aliasesJson e.aliases) "Will" = true) ∧
    (resolveEntity storeResolve "Will" = none ↔
      (∀ e ∈ storeResolve.entities, e.canonicalName ≠ normalizeName "Will") ∧
      (∀ e ∈ storeResolve.entities, likeContains (aliasesJson e.aliases) "Will" = false) ∧
      (∀ e ∈ storeResolve.entities,
        entityMaxSimilarity (normalizeName "Will") e < 4/5)) ∧
    ((∀ e ∈ storeResolve.entities, e.canonicalName ≠ normalizeName "Will") →
      (∀ e ∈ storeResolve.entities, likeContains (aliasesJson e.aliases) "Will" = false) →
      ∀ e, resolveEntity storeResolve "Will" = some e →
        4/5 ≤ entityMaxSimilarity (normalizeName "Will") e ∧
        ∀ e' ∈ storeResolve.entities,
          entityMaxSimilarity (normalizeName "Will") e' ≤
            entityMaxSimilarity (normalizeName "Will") e ∧
          (entityMaxSimilarity (normalizeName "Will") e' =
            entityMaxSimilarity (normalizeName "Will") e → e.id ≤ e'.id)) :=
  resolveEntity_spec storeResolve "Will" (by decide)

end CortexPool
